import Mathlib

/-!
# Verification of the observability bootstrap & validation subsystem

Shallow embedding of the configuration-parsing, capability-gating and
validation logic of the profiles-project repository (the instrumentation
module and `scripts/validate-env.js`), with theorems settling the frozen
claims about it.

Strings are modelled as `List Char`; JavaScript string operations
(`split`, `indexOf`/`slice`, `trim`, `startsWith`, `includes`,
`replace(/\/$/,'')`, `+`) are embedded as functions on `List Char`.
JavaScript objects used as string-keyed maps are modelled as association
lists with in-place overwrite on duplicate keys (`insertKV`), which
preserves the JS insertion-order semantics.
-/

namespace Profiles

/-- Character-list view of a Lean string literal (used to write concrete
test inputs readably). -/
def strL (s : String) : List Char := s.toList

/-- Whitespace test used by JS `String.prototype.trim` for the ASCII
whitespace characters that can occur in the inputs modelled here. -/
def jsIsWs (c : Char) : Bool := c.isWhitespace

/-- JS `s.trim()`: drop whitespace from both ends. -/
def jsTrim (l : List Char) : List Char :=
  ((l.dropWhile jsIsWs).reverse.dropWhile jsIsWs).reverse

/-- JS `s.split(sep)` for a single-character separator: `n` separators
yield `n+1` (possibly empty) parts; never returns an empty list. -/
def jsSplit (c : Char) : List Char → List (List Char)
  | [] => [[]]
  | x :: xs =>
    if x = c then [] :: jsSplit c xs
    else
      match jsSplit c xs with
      | [] => [[x]]
      | h :: t => (x :: h) :: t

/-- JS `pair.indexOf(c)` followed by `slice(0, idx)` / `slice(idx + 1)`:
`none` when `c` does not occur, otherwise the parts before and after the
first occurrence. -/
def splitFirst (c : Char) : List Char → Option (List Char × List Char)
  | [] => none
  | x :: xs =>
    if x = c then some ([], xs)
    else (splitFirst c xs).map (fun p => (x :: p.1, p.2))

/-- JS object property write `obj[k] = v`: overwrite in place when the key
exists (keeping its position), otherwise append. -/
def insertKV {α β : Type} [DecidableEq α] : List (α × β) → α → β → List (α × β)
  | [], k, v => [(k, v)]
  | (k0, v0) :: t, k, v =>
    if k0 = k then (k0, v) :: t else (k0, v0) :: insertKV t k v

/-- JS object property read `obj[k]` on an association list. -/
def lookupKV {α β : Type} [DecidableEq α] : List (α × β) → α → Option β
  | [], _ => none
  | (k0, v0) :: t, k => if k0 = k then some v0 else lookupKV t k

/-- One loop iteration of `parseOtlpHeaders` (instrumentation module,
lines 278-284): split the segment once on the first `=`, trim key and
value, keep the pair only when both are nonempty. -/
def addHeaderPair (acc : List (List Char × List Char)) (pair : List Char) :
    List (List Char × List Char) :=
  match splitFirst '=' pair with
  | none => acc
  | some (k0, v0) =>
    let key := jsTrim k0
    let value := jsTrim v0
    if key ≠ [] ∧ value ≠ [] then insertKV acc key value else acc

/-- The header map accumulated by `parseOtlpHeaders` before its
empty-object check. -/
def parseHeaderPairs (s : List Char) : List (List Char × List Char) :=
  (jsSplit ',' s).foldl addHeaderPair []

/-- `parseOtlpHeaders` (instrumentation module, lines 275-286): `none`
models the JS `undefined` returned for a falsy input or an empty result
object. -/
def parseOtlpHeaders (s : List Char) : Option (List (List Char × List Char)) :=
  if s = [] then none
  else
    let headers := parseHeaderPairs s
    if headers = [] then none else some headers

/-- One loop iteration of the local `parseHeaders` in
`scripts/validate-env.js` (lines 41-47), translated from that file
independently of the instrumentation module. -/
def addHeaderPairVE (acc : List (List Char × List Char)) (pair : List Char) :
    List (List Char × List Char) :=
  match splitFirst '=' pair with
  | none => acc
  | some (k0, v0) =>
    let key := jsTrim k0
    let value := jsTrim v0
    if key ≠ [] ∧ value ≠ [] then insertKV acc key value else acc

/-- The local `parseHeaders` of `scripts/validate-env.js` (lines 39-49):
always returns an object, even when no pair parsed. -/
def parseHeadersVE (s : List Char) : List (List Char × List Char) :=
  (jsSplit ',' s).foldl addHeaderPairVE []

/-- One loop iteration of `parseResourceAttributes` (instrumentation
module, lines 291-294): `pair.split('=')` (all occurrences), trim the
first two parts, keep them when both are nonempty; a segment with no `=`
has an undefined value and is skipped. -/
def addAttrPair (acc : List (List Char × List Char)) (pair : List Char) :
    List (List Char × List Char) :=
  match jsSplit '=' pair with
  | [] => acc
  | [_] => acc
  | k0 :: v0 :: _ =>
    let key := jsTrim k0
    let value := jsTrim v0
    if key ≠ [] ∧ value ≠ [] then insertKV acc key value else acc

/-- `parseResourceAttributes` (instrumentation module, lines 288-296):
returns an (always defined) attribute object, `{}` for a falsy input. -/
def parseResourceAttributes (s : List Char) : List (List Char × List Char) :=
  if s = [] then [] else (jsSplit ',' s).foldl addAttrPair []

/-- A header segment that the `parseOtlpHeaders` loop discards: no `=`,
or an empty trimmed key, or an empty trimmed value. -/
def malformedSeg (m : List Char) : Bool :=
  match splitFirst '=' m with
  | none => true
  | some (k, v) => (jsTrim k).isEmpty || (jsTrim v).isEmpty

/-- JS `s.startsWith(p)`. -/
def jsStartsWith : List Char → List Char → Bool
  | [], _ => true
  | _ :: _, [] => false
  | p :: ps, x :: xs => p = x && jsStartsWith ps xs

/-- JS `s.includes(sub)`: `sub` occurs as a contiguous substring. -/
def jsIncludes (sub : List Char) : List Char → Bool
  | [] => sub.isEmpty
  | x :: xs => jsStartsWith sub (x :: xs) || jsIncludes sub xs

/-- JS `s.replace(/\/$/, '')`: remove one trailing slash when present. -/
def stripTrailingSlash (l : List Char) : List Char :=
  if l.getLast? = some '/' then l.dropLast else l

/-- Process environment: the variables read by the modelled functions;
`none` models an unset variable. -/
structure Env where
  pyroscopeUrl : Option (List Char) := none
  pyroscopeBasicAuthUser : Option (List Char) := none
  pyroscopeBasicAuthPassword : Option (List Char) := none
  otelExporterOtlpEndpoint : Option (List Char) := none
  otelExporterOtlpHeaders : Option (List Char) := none
  otelResourceAttributes : Option (List Char) := none
  kubernetesNamespace : Option (List Char) := none
  namespaceVar : Option (List Char) := none
  kubernetesCluster : Option (List Char) := none
  podUid : Option (List Char) := none
deriving DecidableEq

/-- JS `process.env.X || dflt`: an unset or empty variable falls back to
the default (JS falsiness of the empty string). -/
def envOr (v : Option (List Char)) (dflt : List Char) : List Char :=
  match v with
  | none => dflt
  | some s => if s = [] then dflt else s

/-- JS truthiness of an environment variable (`if (x)`): set and
nonempty. -/
def envTruthy (v : Option (List Char)) : Bool :=
  match v with
  | none => false
  | some s => !s.isEmpty

/-- `DEFAULT_PYROSCOPE_URL` (instrumentation module, line 42). -/
def DEFAULT_PYROSCOPE_URL : List Char := strL "http://localhost:4040"

/-- Characters allowed after the first character of a URL scheme. -/
def schemeChar (c : Char) : Bool :=
  c.isAlpha || c.isDigit || c = '+' || c = '-' || c = '.'

/-- Modelled from the spec: success of the WHATWG `new URL(url)`
constructor (Node standard library, not part of this repository),
approximated for the URL shapes arising here: the string must open with
a scheme (an ASCII letter followed by letters, digits, `+`, `-` or `.`)
and a `:`; when the scheme is `http` or `https` the rest must open with
`//` followed by a nonempty host. -/
def urlOk (s : List Char) : Bool :=
  match splitFirst ':' s with
  | none => false
  | some (scheme, rest) =>
    match scheme with
    | [] => false
    | c :: cs =>
      c.isAlpha && cs.all schemeChar &&
      (if scheme.map Char.toLower = strL "http" ∨
          scheme.map Char.toLower = strL "https" then
        match rest with
        | '/' :: '/' :: host => !(host.takeWhile (fun c => c ≠ '/')).isEmpty
        | _ => false
      else true)

/-- `{ enabled, reason }` returned by the capability gate. -/
structure CapabilityDecision where
  enabled : Bool
  reason : List Char
deriving DecidableEq

/-- `const url = process.env.PYROSCOPE_URL || DEFAULT_PYROSCOPE_URL`
(instrumentation module, lines 49 and 230-231). -/
def resolvedPyroscopeUrl (env : Env) : List Char :=
  envOr env.pyroscopeUrl DEFAULT_PYROSCOPE_URL

/-- `isPyroscopeEnabled` (instrumentation module, lines 48-59): resolve
`PYROSCOPE_URL` with the localhost default, disable on the literal
`false`/`disabled` (or a falsy resolved value), disable when `new URL`
throws, otherwise enabled. -/
def isPyroscopeEnabled (env : Env) : CapabilityDecision :=
  if resolvedPyroscopeUrl env = [] ∨ resolvedPyroscopeUrl env = strL "false" ∨
     resolvedPyroscopeUrl env = strL "disabled" then
    ⟨false, strL "PYROSCOPE_URL not set or disabled"⟩
  else if urlOk (resolvedPyroscopeUrl env) then
    ⟨true, strL "Configured: " ++ resolvedPyroscopeUrl env⟩
  else ⟨false, strL "Invalid PYROSCOPE_URL: " ++ resolvedPyroscopeUrl env⟩

/-- JS object spread `{ ...base, ...pairs }`: fold the pairs into `base`
with overwrite-in-place semantics. -/
def spreadInto (base : List (List Char × List Char))
    (pairs : List (List Char × List Char)) : List (List Char × List Char) :=
  pairs.foldl (fun acc p => insertKV acc p.1 p.2) base

/-- `parseResourceAttributes` applied to `process.env.OTEL_RESOURCE_ATTRIBUTES`
(an unset variable is falsy and yields `{}`). -/
def parseResourceAttributesEnv (v : Option (List Char)) :
    List (List Char × List Char) :=
  match v with
  | none => []
  | some s => parseResourceAttributes s

/-- The `Resource` attribute object built by `initTracing`
(instrumentation module, lines 97-100):
`{ 'service.name': serviceName, ...parseResourceAttributes(...) }`. -/
def buildResource (serviceName : List Char) (attrVar : Option (List Char)) :
    List (List Char × List Char) :=
  spreadInto [(strL "service.name", serviceName)]
    (parseResourceAttributesEnv attrVar)

/-- The profiler configuration object assembled by `initPyroscope`
(instrumentation module, lines 239-259). `sourceMapper` is the
(externally created) optional source-map resolver. -/
structure PyroscopeConfig where
  serverAddress : List Char
  appName : List Char
  collectCpuTime : Bool
  tags : List (List Char × List Char)
  basicAuthUser : Option (List Char) := none
  basicAuthPassword : Option (List Char) := none
  sourceMapper : Option Unit := none
deriving DecidableEq

/-- Observable outcome of `initPyroscope`: the returned
`{ enabled, reason? }`, whether `Pyroscope.init`/`Pyroscope.start` ran to
completion, and the configuration passed to them (if reached). -/
structure InitPyroscopeResult where
  enabled : Bool
  reason : Option (List Char)
  started : Bool
  config : Option PyroscopeConfig
deriving DecidableEq

/-- `initPyroscope` (instrumentation module, lines 219-273).
`sourceMapperOutcome` models what the external
`SourceMapper.create` produced (`none` = unavailable or failed, which
`createSourceMapper` swallows); `pyroStart` models the external
`Pyroscope.init(config)`/`Pyroscope.start()` pair, whose exception is
caught by the surrounding `try`. `rootDirs` is
`options.sourceMapperRootDirs ?? ['.']`. -/
def initPyroscope (env : Env) (appName : List Char)
    (extraTags : List (List Char × List Char))
    (rootDirs : List (List Char))
    (sourceMapperOutcome : Option Unit)
    (pyroStart : PyroscopeConfig → Except (List Char) Unit) :
    InitPyroscopeResult :=
  let d := isPyroscopeEnabled env
  if !d.enabled then
    { enabled := false, reason := some d.reason, started := false, config := none }
  else
    let serverAddress := resolvedPyroscopeUrl env
    let tags := spreadInto
      [(strL "namespace", envOr env.kubernetesNamespace
          (envOr env.namespaceVar (strL "local"))),
       (strL "cluster", envOr env.kubernetesCluster (strL "local")),
       (strL "pod", envOr env.podUid (strL "local"))] extraTags
    let config : PyroscopeConfig :=
      { serverAddress := serverAddress
        appName := appName
        collectCpuTime := true
        tags := tags
        basicAuthUser :=
          if envTruthy env.pyroscopeBasicAuthUser &&
             envTruthy env.pyroscopeBasicAuthPassword then
            env.pyroscopeBasicAuthUser
          else none
        basicAuthPassword :=
          if envTruthy env.pyroscopeBasicAuthUser &&
             envTruthy env.pyroscopeBasicAuthPassword then
            env.pyroscopeBasicAuthPassword
          else none
        sourceMapper := if rootDirs ≠ [] then sourceMapperOutcome else none }
    match pyroStart config with
    | Except.ok _ =>
      { enabled := true, reason := none, started := true, config := some config }
    | Except.error msg =>
      { enabled := false, reason := some msg, started := false, config := some config }

/-- The `/v1/traces` suffix appended by `validateOtlp`. -/
def vTracesSuffix : List Char := strL "/v1/traces"

/-- `baseUrl` of `validateOtlp` (`scripts/validate-env.js`, line 51):
assume `https://` when the endpoint does not start with `http`. -/
def baseOf (endpoint : List Char) : List Char :=
  if jsStartsWith (strL "http") endpoint then endpoint
  else strL "https://" ++ endpoint

/-- `normalized` of `validateOtlp` (`scripts/validate-env.js`, line 52):
the base URL with one trailing slash stripped. -/
def normalizedOf (endpoint : List Char) : List Char :=
  stripTrailingSlash (baseOf endpoint)

/-- `tracesUrl` of `validateOtlp` (`scripts/validate-env.js`,
lines 51-53): append `/v1/traces` unless already contained. -/
def normalizeEndpoint (endpoint : List Char) : List Char :=
  if jsIncludes vTracesSuffix (normalizedOf endpoint) then normalizedOf endpoint
  else normalizedOf endpoint ++ vTracesSuffix

/-- Outcome of a `fetch` probe: an HTTP response (status and status
text) or a network-level exception. -/
inductive ProbeOutcome where
  | response (status : Nat) (statusText : List Char)
  | exception (msg : List Char)
deriving DecidableEq

/-- `{ ok, skip? }` returned by the validator probes, together with the
console message the probe printed (`none` when it printed the generic
skip/success line). -/
structure ValidationOutcome where
  ok : Bool
  skip : Bool := false
  errorLog : Option (List Char) := none
deriving DecidableEq

/-- Decimal rendering of an HTTP status code (JS template
`${res.status}`). -/
def natToChars (n : Nat) : List Char := (toString n).toList

/-- `validateOtlp` (`scripts/validate-env.js`, lines 27-85): skip unless
the endpoint is set and matches `grafana.net`; fail when the raw header
string is missing or lacks `Authorization`, or when no `Authorization`
key parses; then classify the probe outcome (401/403 auth failure, other
≥400 generic failure, exception generic failure, otherwise success). -/
def validateOtlp (env : Env) (probe : ProbeOutcome) : ValidationOutcome :=
  let endpoint := env.otelExporterOtlpEndpoint
  let headers := env.otelExporterOtlpHeaders
  if !envTruthy endpoint || !jsIncludes (strL "grafana.net") (envOr endpoint []) then
    { ok := true, skip := true }
  else if !envTruthy headers || !jsIncludes (strL "Authorization") (envOr headers []) then
    { ok := false,
      errorLog := some (strL "OTLP validation failed: OTEL_EXPORTER_OTLP_HEADERS required for Grafana Cloud") }
  else
    let authHeaders := parseHeadersVE (envOr headers [])
    match lookupKV authHeaders (strL "Authorization") with
    | none =>
      { ok := false,
        errorLog := some (strL "OTLP validation failed: Could not parse Authorization header") }
    | some _ =>
      match probe with
      | ProbeOutcome.response status statusText =>
        if status = 401 ∨ status = 403 then
          { ok := false,
            errorLog := some (strL "OTLP validation failed: Auth rejected (401/403)") }
        else if status ≥ 400 then
          { ok := false,
            errorLog := some (strL "OTLP validation failed: " ++ natToChars status
              ++ strL " " ++ statusText) }
        else { ok := true }
      | ProbeOutcome.exception msg =>
        { ok := false, errorLog := some (strL "OTLP validation failed: " ++ msg) }

/-- `validatePyroscope` (`scripts/validate-env.js`, lines 87-125): skip
unless `PYROSCOPE_URL` is set and matches `grafana.net`; fail when user
or password is missing; then classify the probe outcome (401/403
failure, exception failure, every other status success). -/
def validatePyroscope (env : Env) (probe : ProbeOutcome) : ValidationOutcome :=
  let pyroscopeUrl := env.pyroscopeUrl
  if !envTruthy pyroscopeUrl ||
     !jsIncludes (strL "grafana.net") (envOr pyroscopeUrl []) then
    { ok := true, skip := true }
  else if !envTruthy env.pyroscopeBasicAuthUser ||
          !envTruthy env.pyroscopeBasicAuthPassword then
    { ok := false,
      errorLog := some (strL "Pyroscope validation failed: PYROSCOPE_BASIC_AUTH_USER and _PASSWORD required") }
  else
    match probe with
    | ProbeOutcome.response status _ =>
      if status = 401 ∨ status = 403 then
        { ok := false,
          errorLog := some (strL "Pyroscope validation failed: Auth rejected (401/403)") }
      else { ok := true }
    | ProbeOutcome.exception msg =>
      { ok := false, errorLog := some (strL "Pyroscope validation failed: " ++ msg) }

/-- OpenTelemetry `SeverityNumber` constants used by the logger
facade. -/
def SEVERITY_INFO : Nat := 9

/-- OpenTelemetry `SeverityNumber.WARN`. -/
def SEVERITY_WARN : Nat := 13

/-- OpenTelemetry `SeverityNumber.ERROR`. -/
def SEVERITY_ERROR : Nat := 17

/-- Which console method a log call used. -/
inductive ConsoleStream where
  | log
  | warn
  | error
deriving DecidableEq

/-- A console line: the stream it went to and its text (`console.*` is
called with two arguments, joined by a space). -/
structure ConsoleLine where
  stream : ConsoleStream
  text : List Char
deriving DecidableEq

/-- A JavaScript value passed as a log message: string, integral
number, boolean, `null`, `undefined`, BigInt, array, or plain object.
Cyclic objects — which also make `JSON.stringify` throw — are not
representable in an inductive embedding; `bigint` is the representable
value on which `JSON.stringify` throws. Non-integral numbers, functions
and symbols are outside this fragment. -/
inductive JsVal where
  | str (s : List Char)
  | num (n : Int)
  | bool (b : Bool)
  | jsNull
  | undef
  | bigint (n : Int)
  | arr (elems : List JsVal)
  | obj (fields : List (List Char × JsVal))

/-- Hexadecimal digit for `\u00XX` escapes. -/
def hexDigit (n : Nat) : Char :=
  if n < 10 then Char.ofNat ('0'.toNat + n) else Char.ofNat ('a'.toNat + (n - 10))

/-- JSON escaping of one character inside a quoted string, as
`JSON.stringify` performs it. -/
def escapeChar (c : Char) : List Char :=
  if c = '"' then strL "\\\""
  else if c = '\\' then strL "\\\\"
  else if c = '\n' then strL "\\n"
  else if c = '\r' then strL "\\r"
  else if c = '\t' then strL "\\t"
  else if c.toNat = 8 then strL "\\b"
  else if c.toNat = 12 then strL "\\f"
  else if c.toNat < 32 then
    strL "\\u00" ++ [hexDigit (c.toNat / 16), hexDigit (c.toNat % 16)]
  else [c]

/-- A JSON-quoted string: surrounding double quotes with escaping. -/
def jsonQuote (s : List Char) : List Char :=
  strL "\"" ++ (s.map escapeChar).flatten ++ strL "\""

/-- Comma-join of already-rendered JSON fragments. -/
def joinComma : List (List Char) → List Char
  | [] => []
  | [x] => x
  | x :: rest => x ++ strL "," ++ joinComma rest

mutual

/-- `JSON.stringify` on the modelled value fragment (Node standard
library, external to this repository): `Except.error` models the
`TypeError` thrown on a BigInt; `Except.ok none` models the
`undefined` returned for a top-level `undefined`. -/
def jsonStringify : JsVal → Except (List Char) (Option (List Char))
  | JsVal.str s => Except.ok (some (jsonQuote s))
  | JsVal.num n => Except.ok (some (strL (toString n)))
  | JsVal.bool true => Except.ok (some (strL "true"))
  | JsVal.bool false => Except.ok (some (strL "false"))
  | JsVal.jsNull => Except.ok (some (strL "null"))
  | JsVal.undef => Except.ok none
  | JsVal.bigint _ => Except.error (strL "Do not know how to serialize a BigInt")
  | JsVal.arr elems =>
    match jsonStringifyElems elems with
    | Except.error e => Except.error e
    | Except.ok parts => Except.ok (some (strL "[" ++ joinComma parts ++ strL "]"))
  | JsVal.obj fields =>
    match jsonStringifyFields fields with
    | Except.error e => Except.error e
    | Except.ok parts =>
      Except.ok (some (strL "\x7b" ++ joinComma parts ++ strL "\x7d"))

/-- Array elements: an `undefined` element renders as `null`. -/
def jsonStringifyElems : List JsVal → Except (List Char) (List (List Char))
  | [] => Except.ok []
  | v :: rest =>
    match jsonStringify v with
    | Except.error e => Except.error e
    | Except.ok sv =>
      match jsonStringifyElems rest with
      | Except.error e => Except.error e
      | Except.ok srest => Except.ok ((sv.getD (strL "null")) :: srest)

/-- Object fields: a field whose value serializes to `undefined` is
omitted. -/
def jsonStringifyFields :
    List (List Char × JsVal) → Except (List Char) (List (List Char))
  | [] => Except.ok []
  | (k, v) :: rest =>
    match jsonStringify v with
    | Except.error e => Except.error e
    | Except.ok sv =>
      match jsonStringifyFields rest with
      | Except.error e => Except.error e
      | Except.ok srest =>
        match sv with
        | none => Except.ok srest
        | some s => Except.ok ((jsonQuote k ++ strL ":" ++ s) :: srest)

end

/-- `typeof msg === 'string' ? msg : JSON.stringify(msg)`
(instrumentation module, line 189): a string message is used verbatim,
anything else is serialized — and the serialization runs OUTSIDE the
`try`/`catch`, so its `TypeError` propagates to the caller. -/
def jsBody : JsVal → Except (List Char) (Option (List Char))
  | JsVal.str s => Except.ok (some s)
  | v => jsonStringify v

/-- The structured record handed to `logger.emit`; `body` is `none`
when the computed body is `undefined`. -/
structure LogRecord where
  severityNumber : Nat
  severityText : List Char
  body : Option (List Char)
  attributes : List (List Char × List Char)
deriving DecidableEq

/-- Observable outcome of one logger-facade call: whether the pipeline
emit succeeded, and the console line that was written. -/
structure LogCallResult where
  emitted : Bool
  console : ConsoleLine
deriving DecidableEq

/-- How `console.log`/`warn`/`error` render the second argument: a
string prints verbatim, `undefined` prints as `undefined`. -/
def consoleRender (body : Option (List Char)) : List Char :=
  body.getD (strL "undefined")

/-- The `emit` closure inside `getLogger` (instrumentation module,
lines 188-202). The body is computed first
(`typeof msg === 'string' ? msg : JSON.stringify(msg)`); a `TypeError`
thrown there propagates (`Except.error`), since the `try`/`catch`
guards only `logger.emit` (modelled by `pipelineEmit`), whose failure
is swallowed; the console line is then written in every non-throwing
case. -/
def loggerEmit (serviceName : List Char)
    (pipelineEmit : LogRecord → Except (List Char) Unit)
    (severityNumber : Nat) (severityText : List Char)
    (msg : JsVal) (attrs : List (List Char × List Char)) :
    Except (List Char) LogCallResult :=
  match jsBody msg with
  | Except.error e => Except.error e
  | Except.ok body =>
    let attributes := spreadInto [(strL "service.name", serviceName)] attrs
    let emitted :=
      match pipelineEmit
        { severityNumber := severityNumber, severityText := severityText,
          body := body, attributes := attributes } with
      | Except.ok _ => true
      | Except.error _ => false
    let pre := strL "[" ++ serviceName ++ strL "] " ++ severityText ++ strL ":"
    let line := pre ++ strL " " ++ consoleRender body
    if severityNumber ≥ SEVERITY_ERROR then
      Except.ok { emitted := emitted, console := ⟨ConsoleStream.error, line⟩ }
    else if severityNumber ≥ SEVERITY_WARN then
      Except.ok { emitted := emitted, console := ⟨ConsoleStream.warn, line⟩ }
    else
      Except.ok { emitted := emitted, console := ⟨ConsoleStream.log, line⟩ }

/-- `getLogger(serviceName).info(msg, attrs)`. -/
def loggerInfo (serviceName : List Char)
    (pipelineEmit : LogRecord → Except (List Char) Unit)
    (msg : JsVal) (attrs : List (List Char × List Char)) :
    Except (List Char) LogCallResult :=
  loggerEmit serviceName pipelineEmit SEVERITY_INFO (strL "INFO") msg attrs

/-- `getLogger(serviceName).warn(msg, attrs)`. -/
def loggerWarn (serviceName : List Char)
    (pipelineEmit : LogRecord → Except (List Char) Unit)
    (msg : JsVal) (attrs : List (List Char × List Char)) :
    Except (List Char) LogCallResult :=
  loggerEmit serviceName pipelineEmit SEVERITY_WARN (strL "WARN") msg attrs

/-- `getLogger(serviceName).error(msg, attrs)`. -/
def loggerError (serviceName : List Char)
    (pipelineEmit : LogRecord → Except (List Char) Unit)
    (msg : JsVal) (attrs : List (List Char × List Char)) :
    Except (List Char) LogCallResult :=
  loggerEmit serviceName pipelineEmit SEVERITY_ERROR (strL "ERROR") msg attrs

end Profiles

namespace Profiles

/-! ## Association-list (JS object) lemmas -/

theorem lookupKV_insertKV_self {α β : Type} [DecidableEq α]
    (ps : List (α × β)) (k : α) (v : β) :
    lookupKV (insertKV ps k v) k = some v := by
  induction ps with
  | nil => simp [insertKV, lookupKV]
  | cons p t ih =>
    obtain ⟨k0, v0⟩ := p
    by_cases h : k0 = k
    · subst h
      simp [insertKV, lookupKV]
    · simp [insertKV, lookupKV, h, ih]

theorem lookupKV_insertKV_ne {α β : Type} [DecidableEq α]
    (ps : List (α × β)) {k' k : α} (v : β) (h : k' ≠ k) :
    lookupKV (insertKV ps k' v) k = lookupKV ps k := by
  induction ps with
  | nil => simp [insertKV, lookupKV, h]
  | cons p t ih =>
    obtain ⟨k0, v0⟩ := p
    by_cases h0 : k0 = k'
    · subst h0
      simp [insertKV, lookupKV, h]
    · simp [insertKV, lookupKV, h0, ih]

theorem mem_keys_insertKV {α β : Type} [DecidableEq α]
    (ps : List (α × β)) (k a : α) (v : β) :
    a ∈ (insertKV ps k v).map Prod.fst ↔ a ∈ ps.map Prod.fst ∨ a = k := by
  induction ps with
  | nil => simp [insertKV]
  | cons p t ih =>
    obtain ⟨k0, v0⟩ := p
    by_cases h : k0 = k
    · subst h
      simp [insertKV]
      tauto
    · simp [insertKV, h, ih]
      tauto

theorem keysNodup_insertKV {α β : Type} [DecidableEq α]
    (ps : List (α × β)) (k : α) (v : β)
    (h : (ps.map Prod.fst).Nodup) : ((insertKV ps k v).map Prod.fst).Nodup := by
  induction ps with
  | nil => simp [insertKV]
  | cons p t ih =>
    obtain ⟨k0, v0⟩ := p
    simp only [List.map_cons, List.nodup_cons] at h
    by_cases h0 : k0 = k
    · subst h0
      simpa [insertKV] using h
    · simp only [insertKV, if_neg h0, List.map_cons, List.nodup_cons]
      refine ⟨?_, ih h.2⟩
      rw [mem_keys_insertKV]
      rintro (hm | hm)
      · exact h.1 hm
      · exact h0 hm

theorem lookupKV_eq_none_of_not_mem {α β : Type} [DecidableEq α]
    (ps : List (α × β)) (k : α) (h : k ∉ ps.map Prod.fst) :
    lookupKV ps k = none := by
  induction ps with
  | nil => simp [lookupKV]
  | cons p t ih =>
    obtain ⟨k0, v0⟩ := p
    simp only [List.map_cons, List.mem_cons] at h
    push_neg at h
    simp [lookupKV, Ne.symm h.1, ih h.2]

theorem foldl_preserve {σ τ : Type} (P : σ → Prop) (step : σ → τ → σ)
    (h : ∀ a s, P a → P (step a s)) :
    ∀ (l : List τ) (a : σ), P a → P (l.foldl step a) := by
  intro l
  induction l with
  | nil => intro a ha; simpa using ha
  | cons x xs ih =>
    intro a ha
    simpa using ih (step a x) (h a x ha)

theorem lookupKV_spreadInto (base ps : List (List Char × List Char))
    (k : List Char) (hnd : (ps.map Prod.fst).Nodup) :
    lookupKV (spreadInto base ps) k =
      match lookupKV ps k with
      | some v => some v
      | none => lookupKV base k := by
  induction ps generalizing base with
  | nil => simp [spreadInto, lookupKV]
  | cons p t ih =>
    obtain ⟨k0, v0⟩ := p
    simp only [List.map_cons, List.nodup_cons] at hnd
    have step : spreadInto base ((k0, v0) :: t) = spreadInto (insertKV base k0 v0) t := by
      simp [spreadInto]
    rw [step, ih _ hnd.2]
    by_cases h : k0 = k
    · subst h
      have ht : lookupKV t k0 = none :=
        lookupKV_eq_none_of_not_mem t k0 hnd.1
      simp [lookupKV, ht, lookupKV_insertKV_self]
    · simp [lookupKV, h, lookupKV_insertKV_ne base v0 h]

end Profiles

namespace Profiles

/-! ## Split and segment-parsing lemmas -/

theorem splitFirst_eq_none_iff (c : Char) (l : List Char) :
    splitFirst c l = none ↔ c ∉ l := by
  induction l with
  | nil => simp [splitFirst]
  | cons x xs ih =>
    by_cases h : x = c
    · subst h
      simp [splitFirst]
    · simp [splitFirst, h, ih, Option.map_eq_none', Ne.symm h]

theorem splitFirst_eq_some (c : Char) (l : List Char) : ∀ a b,
    splitFirst c l = some (a, b) → l = a ++ c :: b ∧ c ∉ a := by
  induction l with
  | nil => intro a b h; simp [splitFirst] at h
  | cons x xs ih =>
    intro a b h
    by_cases hx : x = c
    · subst hx
      simp [splitFirst] at h
      obtain ⟨ha, hb⟩ := h
      subst ha; subst hb
      exact ⟨rfl, by simp⟩
    · simp only [splitFirst, if_neg hx, Option.map_eq_some'] at h
      obtain ⟨⟨p1, p2⟩, hp, heq⟩ := h
      simp only [Prod.mk.injEq] at heq
      obtain ⟨ha, hb⟩ := heq
      subst ha; subst hb
      obtain ⟨h1, h2⟩ := ih p1 p2 hp
      subst h1
      refine ⟨rfl, ?_⟩
      intro hmem
      rcases List.mem_cons.mp hmem with hh | hh
      · exact hx hh.symm
      · exact h2 hh

theorem jsSplit_of_not_mem (c : Char) (l : List Char) (h : c ∉ l) :
    jsSplit c l = [l] := by
  induction l with
  | nil => simp [jsSplit]
  | cons x xs ih =>
    have hx : ¬(x = c) := fun e => h (by simp [e])
    have h2 : c ∉ xs := fun m => h (List.mem_cons_of_mem _ m)
    simp [jsSplit, hx, ih h2]

theorem jsSplit_append_cons (c : Char) (a b : List Char) (h : c ∉ a) :
    jsSplit c (a ++ c :: b) = a :: jsSplit c b := by
  induction a with
  | nil => simp [jsSplit]
  | cons x xs ih =>
    have hx : ¬(x = c) := fun e => h (by simp [e])
    have h2 : c ∉ xs := fun m => h (List.mem_cons_of_mem _ m)
    simp [jsSplit, hx, ih h2]

theorem addHeaderPair_eq_addAttrPair (acc : List (List Char × List Char))
    (seg : List Char) (h : seg.count '=' ≤ 1) :
    addHeaderPair acc seg = addAttrPair acc seg := by
  cases hs : splitFirst '=' seg with
  | none =>
    have hn : '=' ∉ seg := (splitFirst_eq_none_iff _ _).mp hs
    simp [addHeaderPair, addAttrPair, hs, jsSplit_of_not_mem _ _ hn]
  | some p =>
    obtain ⟨a, b⟩ := p
    obtain ⟨hseg, hna⟩ := splitFirst_eq_some '=' seg a b hs
    subst hseg
    have hca : a.count '=' = 0 := List.count_eq_zero.mpr hna
    have hcb : b.count '=' = 0 := by
      rw [List.count_append, List.count_cons_self, hca] at h
      omega
    have hnb : '=' ∉ b := List.count_eq_zero.mp hcb
    simp [addHeaderPair, addAttrPair, hs,
      jsSplit_append_cons '=' a b hna, jsSplit_of_not_mem '=' b hnb]

theorem foldl_header_eq_attr (segs : List (List Char)) :
    ∀ acc, (∀ seg ∈ segs, seg.count '=' ≤ 1) →
      segs.foldl addHeaderPair acc = segs.foldl addAttrPair acc := by
  induction segs with
  | nil => intro acc _; rfl
  | cons s t ih =>
    intro acc h
    simp only [List.foldl_cons]
    rw [addHeaderPair_eq_addAttrPair acc s (h s (by simp))]
    exact ih _ (fun seg hm => h seg (by simp [hm]))

theorem getD_parseOtlpHeaders (s : List Char) :
    (parseOtlpHeaders s).getD [] = parseHeaderPairs s := by
  by_cases h : s = []
  · subst h
    decide
  · simp only [parseOtlpHeaders, if_neg h]
    by_cases h2 : parseHeaderPairs s = []
    · simp [h2]
    · simp [h2]

theorem addHeaderPair_of_malformed (acc : List (List Char × List Char))
    (m : List Char) (h : malformedSeg m = true) :
    addHeaderPair acc m = acc := by
  unfold malformedSeg at h
  cases hs : splitFirst '=' m with
  | none => simp [addHeaderPair, hs]
  | some p =>
    obtain ⟨k, v⟩ := p
    rw [hs] at h
    simp only [Bool.or_eq_true, List.isEmpty_iff] at h
    rcases h with h | h <;> simp [addHeaderPair, hs, h]

theorem foldl_addHeaderPair_drop (pre post : List (List Char)) (m : List Char)
    (acc : List (List Char × List Char)) (h : malformedSeg m = true) :
    (pre ++ m :: post).foldl addHeaderPair acc =
      (pre ++ post).foldl addHeaderPair acc := by
  simp [List.foldl_append, List.foldl_cons, addHeaderPair_of_malformed _ _ h]

end Profiles

namespace Profiles

/-! ## Substring and normalization lemmas -/

theorem jsStartsWith_refl (l : List Char) : jsStartsWith l l = true := by
  induction l with
  | nil => rfl
  | cons x xs ih => simp [jsStartsWith, ih]

theorem jsStartsWith_append (p l m : List Char) (h : jsStartsWith p l = true) :
    jsStartsWith p (l ++ m) = true := by
  induction p generalizing l with
  | nil => simp [jsStartsWith]
  | cons a ps ih =>
    cases l with
    | nil => simp [jsStartsWith] at h
    | cons x xs =>
      simp only [jsStartsWith, Bool.and_eq_true, decide_eq_true_eq] at h
      simp only [List.cons_append, jsStartsWith, Bool.and_eq_true, decide_eq_true_eq]
      exact ⟨h.1, ih xs h.2⟩

theorem jsStartsWith_self_append (p m : List Char) :
    jsStartsWith p (p ++ m) = true :=
  jsStartsWith_append p p m (jsStartsWith_refl p)

theorem jsStartsWith_length_le (p l : List Char) (h : jsStartsWith p l = true) :
    p.length ≤ l.length := by
  induction p generalizing l with
  | nil => simp
  | cons a ps ih =>
    cases l with
    | nil => simp [jsStartsWith] at h
    | cons x xs =>
      simp only [jsStartsWith, Bool.and_eq_true] at h
      simpa using ih xs h.2

theorem jsStartsWith_eq_of_length (p l : List Char)
    (h : jsStartsWith p l = true) (hl : l.length = p.length) : l = p := by
  induction p generalizing l with
  | nil =>
    cases l with
    | nil => rfl
    | cons x xs => simp at hl
  | cons a ps ih =>
    cases l with
    | nil => simp [jsStartsWith] at h
    | cons x xs =>
      simp only [jsStartsWith, Bool.and_eq_true, decide_eq_true_eq] at h
      simp only [List.length_cons, Nat.succ.injEq] at hl
      rw [ih xs h.2 hl, h.1]

theorem jsStartsWith_dropLast (p l : List Char) (h : jsStartsWith p l = true)
    (hlen : p.length < l.length) : jsStartsWith p l.dropLast = true := by
  induction p generalizing l with
  | nil => simp [jsStartsWith]
  | cons a ps ih =>
    cases l with
    | nil => simp at hlen
    | cons x xs =>
      cases xs with
      | nil => simp at hlen
      | cons y ys =>
        simp only [jsStartsWith, Bool.and_eq_true] at h
        rw [List.dropLast_cons₂]
        simp only [jsStartsWith, Bool.and_eq_true]
        refine ⟨h.1, ih (y :: ys) h.2 ?_⟩
        simp only [List.length_cons] at hlen ⊢
        omega

theorem jsIncludes_nil (l : List Char) : jsIncludes [] l = true := by
  cases l with
  | nil => rfl
  | cons x xs => simp [jsIncludes, jsStartsWith]

theorem jsIncludes_append_self (sub l : List Char) :
    jsIncludes sub (l ++ sub) = true := by
  induction l with
  | nil =>
    simp only [List.nil_append]
    cases sub with
    | nil => rfl
    | cons x xs => simp [jsIncludes, jsStartsWith_refl]
  | cons x xs ih => simp [jsIncludes, ih]

theorem jsIncludes_append_front (sub b : List Char) :
    jsIncludes sub (sub ++ b) = true := by
  cases sub with
  | nil => exact jsIncludes_nil b
  | cons s ss =>
    simp only [List.cons_append, jsIncludes, Bool.or_eq_true]
    left
    exact jsStartsWith_self_append (s :: ss) b

theorem jsStartsWith_exists (p l : List Char) (h : jsStartsWith p l = true) :
    ∃ t, l = p ++ t := by
  induction p generalizing l with
  | nil => exact ⟨l, rfl⟩
  | cons a ps ih =>
    cases l with
    | nil => simp [jsStartsWith] at h
    | cons x xs =>
      simp only [jsStartsWith, Bool.and_eq_true, decide_eq_true_eq] at h
      obtain ⟨t, ht⟩ := ih xs h.2
      exact ⟨t, by simp [ht, h.1]⟩

theorem jsIncludes_exists (sub l : List Char) (h : jsIncludes sub l = true) :
    ∃ a b, l = a ++ sub ++ b := by
  induction l with
  | nil =>
    simp only [jsIncludes, List.isEmpty_iff] at h
    exact ⟨[], [], by simp [h]⟩
  | cons x xs ih =>
    simp only [jsIncludes, Bool.or_eq_true] at h
    rcases h with h | h
    · obtain ⟨t, ht⟩ := jsStartsWith_exists sub (x :: xs) h
      exact ⟨[], t, by simp [ht]⟩
    · obtain ⟨a, b, hab⟩ := ih h
      exact ⟨x :: a, b, by simp [hab]⟩

theorem jsIncludes_of_eq_append (sub a b : List Char) :
    jsIncludes sub (a ++ sub ++ b) = true := by
  induction a with
  | nil => simpa using jsIncludes_append_front sub b
  | cons x xs ih =>
    simp only [List.cons_append, jsIncludes, Bool.or_eq_true]
    right
    simpa [List.append_assoc] using ih

theorem jsIncludes_dropLast (sub l : List Char) (c : Char)
    (hinc : jsIncludes sub l = true) (hlast : l.getLast? = some c)
    (hsub : sub.getLast? ≠ some c) :
    jsIncludes sub l.dropLast = true := by
  obtain ⟨a, b, rfl⟩ := jsIncludes_exists sub l hinc
  cases hb : b with
  | nil =>
    subst hb
    cases hs : sub with
    | nil => exact jsIncludes_nil _
    | cons s ss =>
      exfalso
      subst hs
      rw [List.append_nil, List.getLast?_append_of_ne_nil a (by simp)] at hlast
      exact hsub hlast
  | cons y ys =>
    subst hb
    rw [List.dropLast_append_of_ne_nil (a ++ sub) (by simp)]
    exact jsIncludes_of_eq_append sub a _

theorem jsStartsWith_http_baseOf (e : List Char) :
    jsStartsWith (strL "http") (baseOf e) = true := by
  unfold baseOf
  split
  · assumption
  · have hsplit : strL "https://" = strL "http" ++ strL "s://" := by decide
    rw [hsplit, List.append_assoc]
    exact jsStartsWith_self_append _ _

theorem jsStartsWith_http_normalizedOf (e : List Char) :
    jsStartsWith (strL "http") (normalizedOf e) = true := by
  have hb := jsStartsWith_http_baseOf e
  unfold normalizedOf stripTrailingSlash
  split
  · rename_i hlast
    apply jsStartsWith_dropLast _ _ hb
    have hle := jsStartsWith_length_le _ _ hb
    rcases Nat.lt_or_ge (strL "http").length (baseOf e).length with hlt | hge
    · exact hlt
    · exfalso
      have heq : (baseOf e).length = (strL "http").length :=
        Nat.le_antisymm hge hle
      have hb4 : baseOf e = strL "http" :=
        jsStartsWith_eq_of_length _ _ hb heq
      rw [hb4] at hlast
      exact absurd hlast (by decide)
  · exact hb

theorem jsStartsWith_http_normalizeEndpoint (e : List Char) :
    jsStartsWith (strL "http") (normalizeEndpoint e) = true := by
  unfold normalizeEndpoint
  split
  · exact jsStartsWith_http_normalizedOf e
  · exact jsStartsWith_append _ _ _ (jsStartsWith_http_normalizedOf e)

theorem jsIncludes_vTraces_normalizeEndpoint (e : List Char) :
    jsIncludes vTracesSuffix (normalizeEndpoint e) = true := by
  unfold normalizeEndpoint
  split
  · assumption
  · exact jsIncludes_append_self _ _

theorem baseOf_of_startsWith (l : List Char)
    (h : jsStartsWith (strL "http") l = true) : baseOf l = l := by
  simp [baseOf, h]

theorem normalizeEndpoint_normalizeEndpoint (e : List Char) :
    normalizeEndpoint (normalizeEndpoint e) =
      stripTrailingSlash (normalizeEndpoint e) := by
  have hbase : baseOf (normalizeEndpoint e) = normalizeEndpoint e :=
    baseOf_of_startsWith _ (jsStartsWith_http_normalizeEndpoint e)
  have hinc : jsIncludes vTracesSuffix
      (stripTrailingSlash (normalizeEndpoint e)) = true := by
    unfold stripTrailingSlash
    split
    · rename_i hlast
      exact jsIncludes_dropLast _ _ '/'
        (jsIncludes_vTraces_normalizeEndpoint e) hlast (by decide)
    · exact jsIncludes_vTraces_normalizeEndpoint e
  conv_lhs => rw [normalizeEndpoint]
  rw [normalizedOf, hbase, if_pos hinc]

end Profiles

namespace Profiles

/-! ## Key-uniqueness of parsed attribute objects -/

theorem keysNodup_addAttrPair (acc : List (List Char × List Char))
    (seg : List Char) (h : (acc.map Prod.fst).Nodup) :
    ((addAttrPair acc seg).map Prod.fst).Nodup := by
  unfold addAttrPair
  split
  · exact h
  · exact h
  · dsimp only
    split
    · exact keysNodup_insertKV _ _ _ h
    · exact h

theorem keysNodup_parseResourceAttributes (s : List Char) :
    ((parseResourceAttributes s).map Prod.fst).Nodup := by
  unfold parseResourceAttributes
  split
  · simp
  · exact foldl_preserve (fun acc => (acc.map Prod.fst).Nodup) addAttrPair
      (fun a seg ha => keysNodup_addAttrPair a seg ha) _ [] (by simp)

theorem keysNodup_parseResourceAttributesEnv (v : Option (List Char)) :
    ((parseResourceAttributesEnv v).map Prod.fst).Nodup := by
  cases v with
  | none => simp [parseResourceAttributesEnv]
  | some s => exact keysNodup_parseResourceAttributes s

/-- A truthy environment variable is set. -/
theorem envTruthy_ne_none (v : Option (List Char)) (h : envTruthy v = true) :
    v ≠ none := by
  cases v with
  | none => simp [envTruthy] at h
  | some s => simp

end Profiles

namespace Profiles

/-! ## Claim theorems -/

/-- C3: `parseOtlpHeaders` splits the string on `,`, splits each segment
once on the first `=`, discards segments with no `=` or with an empty
trimmed key or value without affecting sibling segments, and lets later
duplicate keys overwrite earlier ones; in particular
`"A=1,B=2,A=3"` parses to `{A: "3", B: "2"}` and `"A=1,,B=2,=x"` parses
to `{A: "1", B: "2"}` (and `"a=b=c"` keeps the whole remainder `"b=c"`
after the first `=`). -/
theorem C3_parseOtlpHeaders_algorithm :
    (parseOtlpHeaders (strL "A=1,B=2,A=3") =
      some [(strL "A", strL "3"), (strL "B", strL "2")])
    ∧ (parseOtlpHeaders (strL "A=1,,B=2,=x") =
      some [(strL "A", strL "1"), (strL "B", strL "2")])
    ∧ (parseOtlpHeaders (strL "a=b=c") = some [(strL "a", strL "b=c")])
    ∧ (∀ (pre post : List (List Char)) (m : List Char)
          (acc : List (List Char × List Char)), malformedSeg m = true →
        (pre ++ m :: post).foldl addHeaderPair acc =
          (pre ++ post).foldl addHeaderPair acc)
    ∧ (∀ (acc : List (List Char × List Char)) (k v : List Char),
        lookupKV (insertKV acc k v) k = some v) := by
  refine ⟨by decide, by decide, by decide, ?_, ?_⟩
  · intro pre post m acc h
    exact foldl_addHeaderPair_drop pre post m acc h
  · intro acc k v
    exact lookupKV_insertKV_self acc k v

/-- Witness for C3 at concrete inputs: the malformed segment `"junk"` is
dropped without affecting its siblings, and a later duplicate key
overwrites. -/
theorem C3_parseOtlpHeaders_algorithm_witness :
    ((strL "A=1" :: strL "junk" :: [strL "B=2"]).foldl addHeaderPair [] =
      (strL "A=1" :: [strL "B=2"]).foldl addHeaderPair [])
    ∧ lookupKV (insertKV [(strL "A", strL "1")] (strL "A") (strL "3"))
        (strL "A") = some (strL "3") := by
  constructor
  · exact C3_parseOtlpHeaders_algorithm.2.2.2.1
      [strL "A=1"] [strL "B=2"] (strL "junk") [] (by decide)
  · exact C3_parseOtlpHeaders_algorithm.2.2.2.2
      [(strL "A", strL "1")] (strL "A") (strL "3")

/-- C4 counterexample: on `"a=b=c"` the two parsers disagree —
`parseOtlpHeaders` splits once on the first `=` and keeps `"b=c"`, while
`parseResourceAttributes` splits on every `=` and keeps only `"b"`. -/
theorem C4_counterexample :
    parseOtlpHeaders (strL "a=b=c") = some [(strL "a", strL "b=c")]
    ∧ parseResourceAttributes (strL "a=b=c") = [(strL "a", strL "b")]
    ∧ lookupKV ((parseOtlpHeaders (strL "a=b=c")).getD []) (strL "a") ≠
        lookupKV (parseResourceAttributes (strL "a=b=c")) (strL "a") := by
  decide

/-- C4 (amended): the two parsers produce the same key-to-value mapping
on every string whose comma-segments contain at most one `=`; on a
segment with a second `=` they diverge (see the counterexample). -/
theorem C4_parsers_agree_single_equals (s : List Char)
    (h : ∀ seg ∈ jsSplit ',' s, seg.count '=' ≤ 1) :
    (parseOtlpHeaders s).getD [] = parseResourceAttributes s := by
  rw [getD_parseOtlpHeaders]
  by_cases hs : s = []
  · subst hs; decide
  · rw [parseHeaderPairs, parseResourceAttributes, if_neg hs]
    exact foldl_header_eq_attr _ [] h

/-- Witness for C4 at `"A=1, B = 2"`. -/
theorem C4_parsers_agree_single_equals_witness :
    (∀ seg ∈ jsSplit ',' (strL "A=1, B = 2"), seg.count '=' ≤ 1)
    ∧ (parseOtlpHeaders (strL "A=1, B = 2")).getD [] =
        parseResourceAttributes (strL "A=1, B = 2") :=
  ⟨by decide, C4_parsers_agree_single_equals (strL "A=1, B = 2") (by decide)⟩

/-- C5: the validator's local `parseHeaders` and the instrumentation
module's `parseOtlpHeaders` produce the same key-to-value mapping on
every input (same pairs in the same order); on inputs with no valid
pair, `parseOtlpHeaders` returns `undefined` exactly when `parseHeaders`
returns the empty object. -/
theorem C5_parseHeaders_agree (s : List Char) :
    (parseOtlpHeaders s).getD [] = parseHeadersVE s
    ∧ (parseOtlpHeaders s = none ↔ parseHeadersVE s = []) := by
  have hVE : parseHeadersVE s = parseHeaderPairs s := rfl
  constructor
  · rw [getD_parseOtlpHeaders, hVE]
  · rw [hVE]
    constructor
    · intro h
      by_cases hs : s = []
      · subst hs; decide
      · rw [parseOtlpHeaders, if_neg hs] at h
        by_cases h2 : parseHeaderPairs s = []
        · exact h2
        · simp [h2] at h
    · intro h
      by_cases hs : s = []
      · simp [parseOtlpHeaders, hs]
      · simp [parseOtlpHeaders, hs, h]

/-- Witness for C5 at `"Authorization=Basic abc"` and at the no-pair
input `"x"`. -/
theorem C5_parseHeaders_agree_witness :
    ((parseOtlpHeaders (strL "Authorization=Basic abc")).getD [] =
      parseHeadersVE (strL "Authorization=Basic abc"))
    ∧ (parseOtlpHeaders (strL "x") = none ↔ parseHeadersVE (strL "x") = []) :=
  ⟨(C5_parseHeaders_agree (strL "Authorization=Basic abc")).1,
   (C5_parseHeaders_agree (strL "x")).2⟩

end Profiles

namespace Profiles

/-- C2 counterexample: with `OTEL_RESOURCE_ATTRIBUTES` containing a
`service.name` key, the parsed attributes are spread after the explicit
key and override the supplied service name. -/
theorem C2_counterexample :
    lookupKV (buildResource (strL "api-gateway")
        (some (strL "service.name=spoofed"))) (strL "service.name") =
      some (strL "spoofed")
    ∧ lookupKV (buildResource (strL "api-gateway")
        (some (strL "service.name=spoofed"))) (strL "service.name") ≠
      some (strL "api-gateway") := by
  decide

/-- C2 (amended): the resource maps `service.name` to the value parsed
from `OTEL_RESOURCE_ATTRIBUTES` whenever that variable contributes a
`service.name` key (the spread follows the explicit key, so parsed
attributes override it), and to the explicitly supplied service name
otherwise. -/
theorem C2_service_name_resolution (serviceName : List Char)
    (attrVar : Option (List Char)) :
    lookupKV (buildResource serviceName attrVar) (strL "service.name") =
      match lookupKV (parseResourceAttributesEnv attrVar) (strL "service.name") with
      | some v => some v
      | none => some serviceName := by
  unfold buildResource
  rw [lookupKV_spreadInto _ _ _ (keysNodup_parseResourceAttributesEnv attrVar)]
  cases lookupKV (parseResourceAttributesEnv attrVar) (strL "service.name") with
  | none => simp [lookupKV]
  | some v => simp

/-- Witness for C2 at an attribute string without `service.name`. -/
theorem C2_service_name_resolution_witness :
    lookupKV (buildResource (strL "backend")
        (some (strL "deployment.environment=dev"))) (strL "service.name") =
      some (strL "backend") := by
  have h := C2_service_name_resolution (strL "backend")
    (some (strL "deployment.environment=dev"))
  rw [h]
  decide

/-- C6 counterexample: normalization is not idempotent on
`"http://x/v1/traces//"` — the first pass strips only one of the two
trailing slashes (the suffix is already contained, so nothing is
appended), and the second pass strips the other. -/
theorem C6_counterexample :
    normalizeEndpoint (strL "http://x/v1/traces//") =
      strL "http://x/v1/traces/"
    ∧ normalizeEndpoint (normalizeEndpoint (strL "http://x/v1/traces//")) =
      strL "http://x/v1/traces"
    ∧ normalizeEndpoint (normalizeEndpoint (strL "http://x/v1/traces//")) ≠
      normalizeEndpoint (strL "http://x/v1/traces//") := by
  decide

/-- C6 (amended): every normalized endpoint contains `/v1/traces` and a
second normalization never appends the suffix again — it equals one more
trailing-slash strip of the first result — so normalization is
idempotent for every endpoint whose normalized form does not end with a
slash; the sole exception is an input ending in two slashes whose body
already contains `/v1/traces` (see the counterexample). -/
theorem C6_normalize_idempotent (e : List Char) :
    jsIncludes vTracesSuffix (normalizeEndpoint e) = true
    ∧ normalizeEndpoint (normalizeEndpoint e) =
        stripTrailingSlash (normalizeEndpoint e)
    ∧ ((normalizeEndpoint e).getLast? ≠ some '/' →
        normalizeEndpoint (normalizeEndpoint e) = normalizeEndpoint e) := by
  refine ⟨jsIncludes_vTraces_normalizeEndpoint e,
         normalizeEndpoint_normalizeEndpoint e, ?_⟩
  intro h
  rw [normalizeEndpoint_normalizeEndpoint e, stripTrailingSlash, if_neg h]

/-- Witness for C6 at `"otlp.grafana.net/otlp"`. -/
theorem C6_normalize_idempotent_witness :
    (normalizeEndpoint (strL "otlp.grafana.net/otlp")).getLast? ≠ some '/'
    ∧ normalizeEndpoint (normalizeEndpoint (strL "otlp.grafana.net/otlp")) =
        normalizeEndpoint (strL "otlp.grafana.net/otlp") :=
  ⟨by decide, (C6_normalize_idempotent (strL "otlp.grafana.net/otlp")).2.2 (by decide)⟩

end Profiles

namespace Profiles

/-- C9 counterexample: a BigInt message makes the facade call itself
throw — `JSON.stringify` runs outside the `try`/`catch` — so no console
line is written and the exception reaches the caller. -/
theorem C9_counterexample :
    loggerInfo (strL "api-gateway") (fun _ => Except.ok ())
        (JsVal.bigint 1) [] =
      Except.error (strL "Do not know how to serialize a BigInt") := rfl

/-- C9 (amended): a string message always writes the console line
`[serviceName] LEVEL: message` on the stream matching the severity and
never throws, for every outcome of the logs-pipeline emit (a failing
`logger.emit` is swallowed); more generally, whenever
`typeof msg === 'string' ? msg : JSON.stringify(msg)` produces a body,
the call returns normally with the tagged console line — but when the
serialization throws (a BigInt, or a cyclic object), the exception
propagates to the caller with no console line, because it is raised
outside the `try`/`catch`. -/
theorem C9_logger_console_and_no_throw (serviceName s : List Char)
    (msg : JsVal) (attrs : List (List Char × List Char))
    (pipelineEmit : LogRecord → Except (List Char) Unit) :
    ((loggerInfo serviceName pipelineEmit (JsVal.str s) attrs).map
        LogCallResult.console =
      Except.ok ⟨ConsoleStream.log, strL "[" ++ serviceName ++ strL "] INFO: " ++ s⟩)
    ∧ ((loggerWarn serviceName pipelineEmit (JsVal.str s) attrs).map
        LogCallResult.console =
      Except.ok ⟨ConsoleStream.warn, strL "[" ++ serviceName ++ strL "] WARN: " ++ s⟩)
    ∧ ((loggerError serviceName pipelineEmit (JsVal.str s) attrs).map
        LogCallResult.console =
      Except.ok ⟨ConsoleStream.error, strL "[" ++ serviceName ++ strL "] ERROR: " ++ s⟩)
    ∧ (∀ body, jsBody msg = Except.ok body →
        (loggerInfo serviceName pipelineEmit msg attrs).map
            LogCallResult.console =
          Except.ok ⟨ConsoleStream.log,
            strL "[" ++ serviceName ++ strL "] INFO: " ++ consoleRender body⟩)
    ∧ (∀ e, jsBody msg = Except.error e →
        loggerInfo serviceName pipelineEmit msg attrs = Except.error e) := by
  refine ⟨?_, ?_, ?_, ?_, ?_⟩
  · simp [loggerInfo, loggerEmit, jsBody, consoleRender, Except.map,
      SEVERITY_INFO, SEVERITY_WARN, SEVERITY_ERROR, strL, List.append_assoc]
  · simp [loggerWarn, loggerEmit, jsBody, consoleRender, Except.map,
      SEVERITY_INFO, SEVERITY_WARN, SEVERITY_ERROR, strL, List.append_assoc]
  · simp [loggerError, loggerEmit, jsBody, consoleRender, Except.map,
      SEVERITY_INFO, SEVERITY_WARN, SEVERITY_ERROR, strL, List.append_assoc]
  · intro body h
    simp [loggerInfo, loggerEmit, h, Except.map,
      SEVERITY_INFO, SEVERITY_WARN, SEVERITY_ERROR, strL, List.append_assoc]
  · intro e h
    simp [loggerInfo, loggerEmit, h]

/-- Witness for C9: an object message serializes and logs (even with a
failing pipeline emit), and a BigInt message throws. -/
theorem C9_logger_console_and_no_throw_witness :
    (jsBody (JsVal.obj [(strL "route", JsVal.str (strL "/items"))]) =
      Except.ok (some (strL "\x7b\"route\":\"/items\"\x7d")))
    ∧ ((loggerInfo (strL "api-gateway")
          (fun _ => Except.error (strL "no provider"))
          (JsVal.obj [(strL "route", JsVal.str (strL "/items"))]) []).map
        LogCallResult.console =
      Except.ok ⟨ConsoleStream.log,
        strL "[" ++ strL "api-gateway" ++ strL "] INFO: " ++
          consoleRender (some (strL "\x7b\"route\":\"/items\"\x7d"))⟩)
    ∧ (loggerInfo (strL "api-gateway") (fun _ => Except.error (strL "no provider"))
        (JsVal.bigint 42) [] =
      Except.error (strL "Do not know how to serialize a BigInt")) := by
  refine ⟨rfl, ?_, ?_⟩
  · exact (C9_logger_console_and_no_throw (strL "api-gateway") []
      (JsVal.obj [(strL "route", JsVal.str (strL "/items"))]) []
      (fun _ => Except.error (strL "no provider"))).2.2.2.1
      (some (strL "\x7b\"route\":\"/items\"\x7d")) rfl
  · exact (C9_logger_console_and_no_throw (strL "api-gateway") []
      (JsVal.bigint 42) []
      (fun _ => Except.error (strL "no provider"))).2.2.2.2
      (strL "Do not know how to serialize a BigInt") rfl

end Profiles

namespace Profiles

/-- C7: with `PYROSCOPE_URL` matching the cloud pattern and both
basic-auth user and password set, `validatePyroscope` classifies HTTP
401 and 403 as failure and every other status code (including 400 and
all other 4xx) as success. -/
theorem C7_pyroscope_probe_leniency (env : Env) (url : List Char)
    (status : Nat) (statusText : List Char)
    (hurl : env.pyroscopeUrl = some url)
    (hcloud : jsIncludes (strL "grafana.net") url = true)
    (huser : envTruthy env.pyroscopeBasicAuthUser = true)
    (hpass : envTruthy env.pyroscopeBasicAuthPassword = true) :
    (status = 401 ∨ status = 403 →
      validatePyroscope env (ProbeOutcome.response status statusText) =
        { ok := false,
          errorLog := some (strL "Pyroscope validation failed: Auth rejected (401/403)") })
    ∧ (status ≠ 401 → status ≠ 403 →
      validatePyroscope env (ProbeOutcome.response status statusText) =
        { ok := true }) := by
  have hne : url ≠ [] := by
    intro h
    rw [h] at hcloud
    exact absurd hcloud (by decide)
  have henvOr : envOr (some url) [] = url := by simp [envOr, hne]
  have htruthy : envTruthy (some url) = true := by
    simpa [envTruthy, List.isEmpty_iff] using hne
  constructor
  · intro h
    simp only [validatePyroscope, hurl, henvOr, hcloud, htruthy, huser, hpass,
      Bool.not_true, Bool.false_or, Bool.or_self, Bool.false_eq_true,
      not_false_eq_true, if_false, if_pos h]
  · intro h1 h2
    simp only [validatePyroscope, hurl, henvOr, hcloud, htruthy, huser, hpass,
      Bool.not_true, Bool.false_or, Bool.or_self, Bool.false_eq_true,
      not_false_eq_true, if_false]
    rw [if_neg (by tauto)]

/-- Witness for C7: HTTP 400 (bad payload, valid auth) is success; HTTP
403 is failure. -/
theorem C7_pyroscope_probe_leniency_witness :
    (validatePyroscope
      { pyroscopeUrl := some (strL "https://profiles-prod-001.grafana.net"),
        pyroscopeBasicAuthUser := some (strL "123456"),
        pyroscopeBasicAuthPassword := some (strL "glc_token") }
      (ProbeOutcome.response 400 (strL "Bad Request")) = { ok := true })
    ∧ (validatePyroscope
      { pyroscopeUrl := some (strL "https://profiles-prod-001.grafana.net"),
        pyroscopeBasicAuthUser := some (strL "123456"),
        pyroscopeBasicAuthPassword := some (strL "glc_token") }
      (ProbeOutcome.response 403 (strL "Forbidden")) =
        { ok := false,
          errorLog := some (strL "Pyroscope validation failed: Auth rejected (401/403)") }) := by
  constructor
  · exact (C7_pyroscope_probe_leniency _ _ 400 (strL "Bad Request")
      rfl (by decide) (by decide) (by decide)).2 (by decide) (by decide)
  · exact (C7_pyroscope_probe_leniency _ _ 403 (strL "Forbidden")
      rfl (by decide) (by decide) (by decide)).1 (by decide)

end Profiles

namespace Profiles

/-- C8: with a cloud-pattern endpoint and a parsed `Authorization`
header, `validateOtlp` classifies 401/403 as an auth failure, any other
status ≥ 400 as a generic failure, any status below 400 as success, and
a network-level exception as a generic failure rather than a crash. -/
theorem C8_otlp_probe_classification (env : Env) (ep hd authVal : List Char)
    (status : Nat) (statusText exnMsg : List Char)
    (hep : env.otelExporterOtlpEndpoint = some ep)
    (hcloud : jsIncludes (strL "grafana.net") ep = true)
    (hhd : env.otelExporterOtlpHeaders = some hd)
    (hhauth : jsIncludes (strL "Authorization") hd = true)
    (hparse : lookupKV (parseHeadersVE hd) (strL "Authorization") = some authVal) :
    (status = 401 ∨ status = 403 →
      validateOtlp env (ProbeOutcome.response status statusText) =
        { ok := false,
          errorLog := some (strL "OTLP validation failed: Auth rejected (401/403)") })
    ∧ (¬(status = 401 ∨ status = 403) → 400 ≤ status →
      validateOtlp env (ProbeOutcome.response status statusText) =
        { ok := false,
          errorLog := some (strL "OTLP validation failed: " ++ natToChars status
            ++ strL " " ++ statusText) })
    ∧ (status < 400 →
      validateOtlp env (ProbeOutcome.response status statusText) = { ok := true })
    ∧ (validateOtlp env (ProbeOutcome.exception exnMsg) =
        { ok := false,
          errorLog := some (strL "OTLP validation failed: " ++ exnMsg) }) := by
  have hepne : ep ≠ [] := by
    intro h
    rw [h] at hcloud
    exact absurd hcloud (by decide)
  have hhdne : hd ≠ [] := by
    intro h
    rw [h] at hhauth
    exact absurd hhauth (by decide)
  have hepOr : envOr (some ep) [] = ep := by simp [envOr, hepne]
  have hhdOr : envOr (some hd) [] = hd := by simp [envOr, hhdne]
  have heptruthy : envTruthy (some ep) = true := by
    simpa [envTruthy, List.isEmpty_iff] using hepne
  have hhdtruthy : envTruthy (some hd) = true := by
    simpa [envTruthy, List.isEmpty_iff] using hhdne
  refine ⟨?_, ?_, ?_, ?_⟩
  · intro h
    simp only [validateOtlp, hep, hhd, hepOr, hhdOr, hcloud, hhauth,
      heptruthy, hhdtruthy, hparse, Bool.not_true, Bool.false_or,
      Bool.or_self, Bool.false_eq_true, not_false_eq_true, if_false,
      if_pos h]
  · intro h1 h2
    simp only [validateOtlp, hep, hhd, hepOr, hhdOr, hcloud, hhauth,
      heptruthy, hhdtruthy, hparse, Bool.not_true, Bool.false_or,
      Bool.or_self, Bool.false_eq_true, not_false_eq_true, if_false]
    rw [if_neg h1, if_pos h2]
  · intro h
    have h1 : ¬(status = 401 ∨ status = 403) := by omega
    have h2 : ¬(400 ≤ status) := by omega
    simp only [validateOtlp, hep, hhd, hepOr, hhdOr, hcloud, hhauth,
      heptruthy, hhdtruthy, hparse, Bool.not_true, Bool.false_or,
      Bool.or_self, Bool.false_eq_true, not_false_eq_true, if_false]
    rw [if_neg h1, if_neg h2]
  · simp only [validateOtlp, hep, hhd, hepOr, hhdOr, hcloud, hhauth,
      heptruthy, hhdtruthy, hparse, Bool.not_true, Bool.false_or,
      Bool.or_self, Bool.false_eq_true, not_false_eq_true, if_false]

/-- Witness for C8: success at 200, generic failure at 500, and a
network exception handled as failure. -/
theorem C8_otlp_probe_classification_witness :
    (validateOtlp
      { otelExporterOtlpEndpoint := some (strL "https://otlp-gateway.grafana.net/otlp"),
        otelExporterOtlpHeaders := some (strL "Authorization=Basic abc") }
      (ProbeOutcome.response 200 (strL "OK")) = { ok := true })
    ∧ (validateOtlp
      { otelExporterOtlpEndpoint := some (strL "https://otlp-gateway.grafana.net/otlp"),
        otelExporterOtlpHeaders := some (strL "Authorization=Basic abc") }
      (ProbeOutcome.response 500 (strL "Server Error")) =
        { ok := false,
          errorLog := some (strL "OTLP validation failed: " ++ natToChars 500
            ++ strL " " ++ strL "Server Error") })
    ∧ (validateOtlp
      { otelExporterOtlpEndpoint := some (strL "https://otlp-gateway.grafana.net/otlp"),
        otelExporterOtlpHeaders := some (strL "Authorization=Basic abc") }
      (ProbeOutcome.exception (strL "fetch failed")) =
        { ok := false,
          errorLog := some (strL "OTLP validation failed: " ++ strL "fetch failed") }) := by
  refine ⟨?_, ?_, ?_⟩
  · exact (C8_otlp_probe_classification _ _ _ (strL "Basic abc") 200
      (strL "OK") (strL "fetch failed") rfl (by decide) rfl (by decide)
      (by decide)).2.2.1 (by decide)
  · exact (C8_otlp_probe_classification _ _ _ (strL "Basic abc") 500
      (strL "Server Error") (strL "fetch failed") rfl (by decide) rfl (by decide)
      (by decide)).2.1 (by decide) (by decide)
  · exact (C8_otlp_probe_classification _ _ _ (strL "Basic abc") 200
      (strL "OK") (strL "fetch failed") rfl (by decide) rfl (by decide)
      (by decide)).2.2.2

end Profiles

namespace Profiles

/-- A JS `||` fallback with a nonempty default is nonempty. -/
theorem envOr_ne_nil (v : Option (List Char)) (d : List Char) (hd : d ≠ []) :
    envOr v d ≠ [] := by
  cases v with
  | none => simpa [envOr] using hd
  | some s =>
    by_cases h : s = []
    · simpa [envOr, h] using hd
    · simp [envOr, h]

/-- C1 counterexample: with `PYROSCOPE_URL` unset the decision falls
back to the localhost default and is `{enabled: true}`, and
`initPyroscope` proceeds to initialize and start the profiler — not
`{enabled: false}` with no handle as claimed. -/
theorem C1_counterexample :
    isPyroscopeEnabled {} =
      ⟨true, strL "Configured: http://localhost:4040"⟩
    ∧ (isPyroscopeEnabled {}).enabled ≠ false
    ∧ (initPyroscope {} (strL "api-gateway") [] [strL "."] none
        (fun _ => Except.ok ())).started = true := by
  refine ⟨by decide, by decide, by decide⟩

/-- C1 (amended): an unset (or empty) `PYROSCOPE_URL` resolves to the
localhost default and profiling is enabled; the decision is
`enabled=false` exactly when the resolved URL is the literal `false` or
`disabled` or fails URL parsing, every disabled case carries a nonempty
reason string, and a disabled decision makes `initPyroscope` return
without initializing the profiler. -/
theorem C1_pyroscope_gate (env : Env) :
    ((isPyroscopeEnabled env).enabled = false ↔
      (resolvedPyroscopeUrl env = strL "false" ∨
       resolvedPyroscopeUrl env = strL "disabled" ∨
       urlOk (resolvedPyroscopeUrl env) = false))
    ∧ (env.pyroscopeUrl = none →
        isPyroscopeEnabled env =
          ⟨true, strL "Configured: " ++ DEFAULT_PYROSCOPE_URL⟩)
    ∧ ((isPyroscopeEnabled env).enabled = false →
        (isPyroscopeEnabled env).reason ≠ [])
    ∧ (∀ (appName : List Char) (extraTags : List (List Char × List Char))
          (rootDirs : List (List Char)) (sm : Option Unit)
          (ps : PyroscopeConfig → Except (List Char) Unit),
        (isPyroscopeEnabled env).enabled = false →
        initPyroscope env appName extraTags rootDirs sm ps =
          { enabled := false, reason := some (isPyroscopeEnabled env).reason,
            started := false, config := none }) := by
  have hne : resolvedPyroscopeUrl env ≠ [] :=
    envOr_ne_nil env.pyroscopeUrl DEFAULT_PYROSCOPE_URL (by decide)
  refine ⟨?_, ?_, ?_, ?_⟩
  · by_cases hd : resolvedPyroscopeUrl env = strL "false" ∨
        resolvedPyroscopeUrl env = strL "disabled"
    · have hcond : resolvedPyroscopeUrl env = [] ∨
          resolvedPyroscopeUrl env = strL "false" ∨
          resolvedPyroscopeUrl env = strL "disabled" := Or.inr hd
      simp only [isPyroscopeEnabled, if_pos hcond]
      refine ⟨fun _ => ?_, fun _ => by trivial⟩
      exact hd.elim Or.inl (fun h => Or.inr (Or.inl h))
    · have hcond : ¬(resolvedPyroscopeUrl env = [] ∨
          resolvedPyroscopeUrl env = strL "false" ∨
          resolvedPyroscopeUrl env = strL "disabled") := by
        rintro (h | h | h)
        · exact hne h
        · exact hd (Or.inl h)
        · exact hd (Or.inr h)
      by_cases hu : urlOk (resolvedPyroscopeUrl env) = true
      · simp only [isPyroscopeEnabled, if_neg hcond, if_pos hu]
        constructor
        · intro h
          exact absurd h (by simp)
        · rintro (h | h | h)
          · exact absurd h (fun h => hd (Or.inl h))
          · exact absurd h (fun h => hd (Or.inr h))
          · rw [hu] at h
            exact absurd h (by simp)
      · simp only [isPyroscopeEnabled, if_neg hcond, if_neg hu]
        simp only [true_iff]
        exact Or.inr (Or.inr (by simpa using hu))
  · intro h
    have hres : resolvedPyroscopeUrl env = DEFAULT_PYROSCOPE_URL := by
      simp [resolvedPyroscopeUrl, envOr, h]
    simp only [isPyroscopeEnabled, hres]
    decide
  · intro h
    by_cases hcond : resolvedPyroscopeUrl env = [] ∨
        resolvedPyroscopeUrl env = strL "false" ∨
        resolvedPyroscopeUrl env = strL "disabled"
    · simp only [isPyroscopeEnabled, if_pos hcond]
      decide
    · by_cases hu : urlOk (resolvedPyroscopeUrl env) = true
      · simp only [isPyroscopeEnabled, if_neg hcond, if_pos hu] at h
        exact absurd h (by simp)
      · simp only [isPyroscopeEnabled, if_neg hcond, if_neg hu]
        intro hh
        have h1 : strL "Invalid PYROSCOPE_URL: " ++ resolvedPyroscopeUrl env = [] := hh
        rw [List.append_eq_nil] at h1
        exact absurd h1.1 (by decide)
  · intro appName extraTags rootDirs sm ps h
    simp [initPyroscope, h]

/-- Witness for C1 at `PYROSCOPE_URL = "disabled"` and at an unset
variable. -/
theorem C1_pyroscope_gate_witness :
    ((isPyroscopeEnabled { pyroscopeUrl := some (strL "disabled") }).enabled = false)
    ∧ (isPyroscopeEnabled { podUid := some (strL "pod-7") } =
        ⟨true, strL "Configured: " ++ DEFAULT_PYROSCOPE_URL⟩)
    ∧ (initPyroscope { pyroscopeUrl := some (strL "disabled") }
        (strL "backend") [] [strL "."] none (fun _ => Except.ok ()) =
        { enabled := false,
          reason := some (isPyroscopeEnabled
            { pyroscopeUrl := some (strL "disabled") }).reason,
          started := false, config := none }) := by
  refine ⟨?_, ?_, ?_⟩
  · exact (C1_pyroscope_gate { pyroscopeUrl := some (strL "disabled") }).1.mpr
      (by decide)
  · exact (C1_pyroscope_gate { podUid := some (strL "pod-7") }).2.1 rfl
  · exact (C1_pyroscope_gate { pyroscopeUrl := some (strL "disabled") }).2.2.2
      (strL "backend") [] [strL "."] none (fun _ => Except.ok ()) (by decide)

end Profiles

namespace Profiles

/-- C10: when the gate enables profiling and the profiler library call
succeeds, `initPyroscope` starts the profiler with a configuration that
carries basic-auth credentials if and only if both
`PYROSCOPE_BASIC_AUTH_USER` and `PYROSCOPE_BASIC_AUTH_PASSWORD` are set
and nonempty; with only one of them set it still initializes and starts,
with no authentication fields at all. -/
theorem C10_basic_auth_iff_both (env : Env) (appName : List Char)
    (extraTags : List (List Char × List Char)) (rootDirs : List (List Char))
    (sm : Option Unit) (ps : PyroscopeConfig → Except (List Char) Unit)
    (hen : (isPyroscopeEnabled env).enabled = true)
    (hok : ∀ cfg, ps cfg = Except.ok ()) :
    ∃ cfg, initPyroscope env appName extraTags rootDirs sm ps =
        { enabled := true, reason := none, started := true, config := some cfg }
      ∧ ((cfg.basicAuthUser ≠ none ∨ cfg.basicAuthPassword ≠ none) ↔
          (envTruthy env.pyroscopeBasicAuthUser = true ∧
           envTruthy env.pyroscopeBasicAuthPassword = true))
      ∧ (envTruthy env.pyroscopeBasicAuthUser = true →
         envTruthy env.pyroscopeBasicAuthPassword = true →
          cfg.basicAuthUser = env.pyroscopeBasicAuthUser ∧
          cfg.basicAuthPassword = env.pyroscopeBasicAuthPassword)
      ∧ (¬(envTruthy env.pyroscopeBasicAuthUser = true ∧
           envTruthy env.pyroscopeBasicAuthPassword = true) →
          cfg.basicAuthUser = none ∧ cfg.basicAuthPassword = none) := by
  simp only [initPyroscope, hen, Bool.not_true, Bool.false_eq_true,
    not_false_eq_true, if_false]
  rw [hok]
  refine ⟨_, rfl, ?_, ?_, ?_⟩
  · by_cases hb : (envTruthy env.pyroscopeBasicAuthUser &&
        envTruthy env.pyroscopeBasicAuthPassword) = true
    · obtain ⟨hu, hp⟩ := Bool.and_eq_true_iff.mp hb
      rw [if_pos hb, if_pos hb]
      simp only [hu, hp, and_self, iff_true]
      exact Or.inl (envTruthy_ne_none _ hu)
    · rw [if_neg hb, if_neg hb]
      constructor
      · rintro (h | h) <;> exact absurd rfl h
      · rintro ⟨hu, hp⟩
        exact absurd (Bool.and_eq_true_iff.mpr ⟨hu, hp⟩) hb
  · intro hu hp
    have hb : (envTruthy env.pyroscopeBasicAuthUser &&
        envTruthy env.pyroscopeBasicAuthPassword) = true :=
      Bool.and_eq_true_iff.mpr ⟨hu, hp⟩
    rw [if_pos hb, if_pos hb]
    exact ⟨rfl, rfl⟩
  · intro hnb
    have hb : ¬(envTruthy env.pyroscopeBasicAuthUser &&
        envTruthy env.pyroscopeBasicAuthPassword) = true :=
      fun hb => hnb (Bool.and_eq_true_iff.mp hb)
    rw [if_neg hb, if_neg hb]
    exact ⟨rfl, rfl⟩

/-- Witness for C10: with only the user variable set, profiling still
starts and the configuration carries no authentication. -/
theorem C10_basic_auth_iff_both_witness :
    (initPyroscope
      { pyroscopeUrl := some (strL "http://localhost:4040"),
        pyroscopeBasicAuthUser := some (strL "user-only") }
      (strL "backend") [] [strL "."] none (fun _ => Except.ok ())).started = true
    ∧ (initPyroscope
      { pyroscopeUrl := some (strL "http://localhost:4040"),
        pyroscopeBasicAuthUser := some (strL "user-only") }
      (strL "backend") [] [strL "."] none
      (fun _ => Except.ok ())).config.map PyroscopeConfig.basicAuthUser =
        some none := by
  obtain ⟨cfg, h1, _h2, _h3, h4⟩ := C10_basic_auth_iff_both
    { pyroscopeUrl := some (strL "http://localhost:4040"),
      pyroscopeBasicAuthUser := some (strL "user-only") }
    (strL "backend") [] [strL "."] none (fun _ => Except.ok ())
    (by decide) (fun _ => rfl)
  have hnone := h4 (by decide)
  constructor
  · rw [h1]
  · rw [h1]
    simp [hnone.1]

end Profiles
